import Mathlib

/-!
Verification development for the Zoopla agent scraper (`src/main.js`).

The repository ships two concatenated revisions of the same scraper
(v2.1.0 first, v1.0.0 second).  Both are modelled here; when the two
revisions define a function with the same name, the v1 variant carries a
`V1` suffix (for `dedupeAgents` the v2 variant carries a `V2` suffix in
the helper layer, with `dedupeAgents` itself being the v2 filter-based
definition, matching the order of appearance in the file).

JavaScript values flowing through the extraction pipeline are modelled
by the inductive `JsVal`.  JS numbers are modelled as integers inside
documents (`vNum : Int`), and the results of `parseNumber` as exact
decimals or NaN (`JsNum` over `JsDec`); the claims checked here never
depend on binary floating-point rounding.  DOM and URL library calls
(`cheerio`, `new URL`) are external collaborators: their outputs are
modelled as explicit inputs (`PageLinks`) and a query-parameter list
(`UrlM`).
-/

namespace Zoopla

/-- A JavaScript value as seen by the extraction pipeline: the payloads
are parsed JSON plus `undefined` holes produced by missing-property
access. -/
inductive JsVal where
  | vNull : JsVal
  | vUndefined : JsVal
  | vStr : String → JsVal
  | vNum : Int → JsVal
  | vBool : Bool → JsVal
  | vObj : List (String × JsVal) → JsVal
  | vArr : List JsVal → JsVal
deriving BEq

/-- JS truthiness: `null`, `undefined`, `""`, `0` and `false` are falsy;
objects and arrays are always truthy. -/
def truthy : JsVal → Bool
  | .vNull => false
  | .vUndefined => false
  | .vStr s => s ≠ ""
  | .vNum n => n ≠ 0
  | .vBool b => b
  | .vObj _ => true
  | .vArr _ => true

/-- JS `a || b`. -/
def jsOr (a b : JsVal) : JsVal := if truthy a then a else b

/-- Property access `obj.k` (yields `undefined` on anything that is not
an object or lacks the key, mirroring how the scraper only dereferences
values it has already checked or guards with `?.`). -/
def getField (v : JsVal) (k : String) : JsVal :=
  match v with
  | .vObj fields =>
      match fields.find? (fun p => p.1 == k) with
      | some p => p.2
      | none => .vUndefined
  | _ => .vUndefined

/-- Optional chaining `obj?.k`. -/
def optChain (v : JsVal) (k : String) : JsVal :=
  match v with
  | .vNull => .vUndefined
  | .vUndefined => .vUndefined
  | _ => getField v k

/-- Whitespace as matched by the `\s` class / `String.prototype.trim`. -/
def isJsSpace (c : Char) : Bool :=
  c = ' ' ∨ c = '\t' ∨ c = '\n' ∨ c = '\r' ∨ c = '\x0b' ∨ c = '\x0c'

def isReDigit (c : Char) : Bool := c.isDigit

def isReAlpha (c : Char) : Bool := c.isAlpha

/-- Word characters for the regex `\b` boundary. -/
def isWordChar (c : Char) : Bool := c.isAlphanum ∨ c = '_'

mutual
/-- `String(x)` for the values the pipeline stringifies. -/
def jsToString : JsVal → String
  | .vNull => "null"
  | .vUndefined => "undefined"
  | .vStr s => s
  | .vNum n => toString n
  | .vBool b => if b then "true" else "false"
  | .vObj _ => "[object Object]"
  | .vArr elems => String.intercalate "," (jsArrStrings elems)

def jsArrStrings : List JsVal → List String
  | [] => []
  | v :: rest =>
      (match v with
       | .vNull => ""
       | .vUndefined => ""
       | _ => jsToString v) :: jsArrStrings rest
end

/-- `replace(/\s+/g, ' ')` over a character list; the flag records
whether the previous character was collapsed whitespace. -/
def collapseWsAux : Bool → List Char → List Char
  | _, [] => []
  | prevSpace, c :: rest =>
      if isJsSpace c then
        if prevSpace then collapseWsAux true rest
        else ' ' :: collapseWsAux true rest
      else c :: collapseWsAux false rest

def collapseWs (s : String) : String := String.mk (collapseWsAux false s.data)

/-- `String.prototype.trim`. -/
def trimJs (s : String) : String :=
  String.mk (((s.data.dropWhile isJsSpace).reverse.dropWhile isJsSpace).reverse)

/-- `cleanText` (identical in both revisions of `main.js`):
`text ? String(text).replace(/\s+/g, ' ').trim() : null`.  Note the
result can be the empty string (for all-whitespace truthy input). -/
def cleanText (v : JsVal) : Option String :=
  if truthy v then some (trimJs (collapseWs (jsToString v))) else none

/-- Lift a JS string-or-null back into `JsVal` (for re-feeding cleaned
strings into the utility functions, as the source does). -/
def jsOfOptStr : Option String → JsVal
  | none => .vNull
  | some s => .vStr s

/-- JS `a || b` on string-or-null values (empty string is falsy). -/
def optStrOr (a b : Option String) : Option String :=
  match a with
  | some s => if s = "" then b else some s
  | none => b

/-- Rendering inside a template literal: `null` prints as `"null"`. -/
def renderOptStr : Option String → String
  | none => "null"
  | some s => s

/-- The module constant `BASE_URL` (identical in both revisions). -/
def BASE_URL : String := "https://www.zoopla.co.uk"

/-- The module constant `DEFAULT_START_URL` (identical in both
revisions). -/
def DEFAULT_START_URL : String :=
  "https://www.zoopla.co.uk/find-agents/estate-agents/london/"

/-- Exact character-list prefix test. -/
def leadsWith : List Char → List Char → Bool
  | [], _ => true
  | _ :: _, [] => false
  | p :: ps, c :: cs => p = c ∧ leadsWith ps cs

/-- The meaning of `String.prototype.startsWith` for the ASCII needles
the source uses. -/
def jsStartsWith (s needle : String) : Bool :=
  leadsWith needle.data s.data

/-- `ensureAbsoluteUrl` (lines 34-46 and 541-554 of `main.js`; the two
revisions differ only in statement layout).  The module constant
`BASE_URL` it closes over is lambda-lifted into the parameter `base`,
matching the spec signature `toAbsoluteUrl(v, baseOrigin)`; every
internal call instantiates `base := BASE_URL`. -/
def ensureAbsoluteUrl (base : String) (value : JsVal) : Option String :=
  if ¬ truthy value then none
  else
    -- `typeof url === 'object'`: chase `href`/`url`/`value`, falling
    -- back to `toString()` (always a function on JS objects).
    let url : JsVal :=
      match value with
      | .vObj _ =>
          jsOr (getField value "href") (jsOr (getField value "url")
            (jsOr (getField value "value") (.vStr (jsToString value))))
      | .vArr _ =>
          jsOr (getField value "href") (jsOr (getField value "url")
            (jsOr (getField value "value") (.vStr (jsToString value))))
      | _ => value
    match url with
    | .vStr s =>
        let trimmed := trimJs s
        if trimmed = "" then none
        else if jsStartsWith trimmed "data:" ∨ jsStartsWith trimmed "mailto:" ∨
                jsStartsWith trimmed "tel:" then none
        else if jsStartsWith trimmed "//" then some ("https:" ++ trimmed)
        else if jsStartsWith trimmed "http" then some trimmed
        else if jsStartsWith trimmed "/" then some (base ++ trimmed)
        else some (base ++ "/" ++ trimmed)
    | _ => none

/-- An exact decimal value `mant / 10 ^ exp`, kept in canonical form
(no factor of ten shared between mantissa and exponent).  This models
the JS numbers the scraper manipulates: JSON integers and the decimal
values `Number(...)` produces from digit/dot strings; binary
floating-point rounding plays no role in any behavior checked here. -/
structure JsDec where
  mant : Int
  exp : Nat
deriving BEq, DecidableEq

/-- Strip shared factors of ten (canonicalization). -/
def stripTens : Int → Nat → Int × Nat
  | m, 0 => (m, 0)
  | m, e + 1 => if m % 10 = 0 then stripTens (m / 10) e else (m, e + 1)

def decCanon (m : Int) (e : Nat) : JsDec :=
  ⟨(stripTens m e).1, (stripTens m e).2⟩

def JsDec.ofInt (n : Int) : JsDec := ⟨n, 0⟩

/-- Result type of `parseNumber`: a JS number, which for the digit/dot
strings the function feeds to `Number(...)` is either an exact decimal
value or `NaN`. -/
inductive JsNum where
  | nan : JsNum
  | val : JsDec → JsNum
deriving BEq, DecidableEq

def natFromDigits (cs : List Char) : Nat :=
  cs.foldl (fun acc c => acc * 10 + (c.toNat - '0'.toNat)) 0

/-- `Number(s)` for a nonempty string of digits and dots (the only
strings `parseNumber` ever feeds to `Number`). -/
def numberOfDigitDot (cs : List Char) : JsNum :=
  let intPart := cs.takeWhile (fun c => c ≠ '.')
  let rest := cs.drop intPart.length
  match rest with
  | [] => .val (.ofInt (natFromDigits intPart))
  | _ :: fracPart =>
      if fracPart.any (fun c => c = '.') then .nan
      else if intPart = [] ∧ fracPart = [] then .nan
      else
        .val (decCanon
          (natFromDigits intPart * ((10 : Nat) ^ fracPart.length : Nat) +
            natFromDigits fracPart)
          fracPart.length)

/-- `parseNumber` (lines 57-62 / 565-570, identical in both
revisions). -/
def parseNumber (v : JsVal) : Option JsNum :=
  match v with
  | .vNum n => some (.val (.ofInt n))
  | _ =>
      if ¬ truthy v then none
      else
        let numeric := (jsToString v).data.filter (fun c => c.isDigit ∨ c = '.')
        if numeric = [] then none else some (numberOfDigitDot numeric)

/-- `String(n)` for a canonical exact decimal: integers print without a
point, fractional values as `int.frac` exactly as JS prints decimal
values short enough to be exact. -/
def decToString (d : JsDec) : String :=
  if d.exp = 0 then toString d.mant
  else
    let digits := (toString d.mant.natAbs).data
    let padded :=
      if digits.length ≤ d.exp then List.replicate (d.exp + 1 - digits.length) '0' ++ digits
      else digits
    let intPart := padded.take (padded.length - d.exp)
    let fracPart := padded.drop (padded.length - d.exp)
    (if d.mant < 0 then "-" else "") ++ String.mk intPart ++ "." ++ String.mk fracPart

/-- One atom of the regular expressions used by the scraper: a character
class with a repetition range (`hi = none` meaning unbounded, as in
`\s+`).  Every quantifier in the source's patterns applies to a single
character class, so this shape is exact. -/
structure Piece where
  cls : Char → Bool
  lo : Nat
  hi : Option Nat

/-- Length of the maximal prefix drawn from a character class. -/
def runLen (p : Char → Bool) : List Char → Nat
  | [] => 0
  | c :: rest => if p c then runLen p rest + 1 else 0

/-- Candidate repetition counts in greedy (descending) order. -/
def descCounts (lo mx : Nat) : List Nat :=
  ((List.range (mx + 1)).filter (fun n => lo ≤ n)).reverse

def firstSomeNat (f : Nat → Option Nat) : List Nat → Option Nat
  | [] => none
  | n :: ns =>
      match f n with
      | some r => some r
      | none => firstSomeNat f ns

/-- Backtracking matcher for a sequence of `Piece`s against a prefix of
`cs`, greedy per piece (JS semantics), with `k` the trailing-context
check returning how many further characters it consumes.  Returns the
total number of characters consumed.  `fuel` only needs to exceed the
number of pieces; all call sites pass a constant comfortably above the
longest pattern. -/
def matchPieces (fuel : Nat) (pieces : List Piece) (cs : List Char)
    (k : List Char → Option Nat) : Option Nat :=
  match fuel, pieces with
  | 0, _ => none
  | _ + 1, [] => k cs
  | fuel + 1, pc :: rest =>
      let r := runLen pc.cls cs
      let mx := min (pc.hi.getD r) r
      firstSomeNat
        (fun n => (matchPieces fuel rest (cs.drop n) k).map (fun m => n + m))
        (descCounts pc.lo mx)

/-- A whole pattern of the form `\b ( pieces ) trailing`: `preB` demands
a word boundary before the first matched character (all such patterns
start with a word-class piece, so the boundary reduces to the previous
character not being a word character), and `trail` is the condition on
the text after the group. -/
structure RePattern where
  pieces : List Piece
  preB : Bool
  trail : List Char → Bool

def boundaryBefore : Option Char → Bool
  | none => true
  | some c => ¬ isWordChar c

/-- The trailing `\b` after a group ending in a word character: the rest
of the text is empty or starts with a non-word character. -/
def nonWordLead : List Char → Bool
  | [] => true
  | c :: _ => ¬ isWordChar c

/-- Try a `RePattern` anchored at the current position; on success
return the captured group (the characters consumed by `pieces`). -/
def tryPatternAt (pat : RePattern) (prev : Option Char) (cs : List Char) :
    Option (List Char) :=
  if pat.preB ∧ ¬ boundaryBefore prev then none
  else
    match matchPieces 32 pat.pieces cs
        (fun rest => if pat.trail rest then some 0 else none) with
    | some n => some (cs.take n)
    | none => none

/-- Leftmost-position search for a `RePattern`, as `String.prototype.match`
does: try each start position in order, full backtracking at each. -/
def searchPattern (pat : RePattern) : Option Char → List Char → Option (List Char)
  | prev, cs =>
      match tryPatternAt pat prev cs with
      | some cap => some cap
      | none =>
          match cs with
          | [] => none
          | c :: rest => searchPattern pat (some c) rest

def firstSomePat (f : RePattern → Option (List Char)) :
    List RePattern → Option (List Char)
  | [] => none
  | p :: ps =>
      match f p with
      | some r => some r
      | none => firstSomePat f ps

/-- `/\b([A-Z]{1,2}\d{1,2}[A-Z]?\s+\d[A-Z]{2})\b/i` -/
def ukPostcodeFull : RePattern :=
  { pieces := [⟨isReAlpha, 1, some 2⟩, ⟨isReDigit, 1, some 2⟩,
               ⟨isReAlpha, 0, some 1⟩, ⟨isJsSpace, 1, none⟩,
               ⟨isReDigit, 1, some 1⟩, ⟨isReAlpha, 2, some 2⟩],
    preB := true,
    trail := nonWordLead }

/-- `/\b([A-Z]{1,2}\d{1,2}[A-Z]?\d[A-Z]{2})\b/i` -/
def ukPostcodeNoSpace : RePattern :=
  { pieces := [⟨isReAlpha, 1, some 2⟩, ⟨isReDigit, 1, some 2⟩,
               ⟨isReAlpha, 0, some 1⟩, ⟨isReDigit, 1, some 1⟩,
               ⟨isReAlpha, 2, some 2⟩],
    preB := true,
    trail := nonWordLead }

/-- `/\b([A-Z]{1,2}\d{1,2}[A-Z]?)\s*$/i` -/
def ukPostcodePartial : RePattern :=
  { pieces := [⟨isReAlpha, 1, some 2⟩, ⟨isReDigit, 1, some 2⟩,
               ⟨isReAlpha, 0, some 1⟩],
    preB := true,
    trail := fun rest => rest.all isJsSpace }

/-- `extractUkPostcode` (lines 64-77 / 584-597, identical in both
revisions): try the three patterns in source order, return the first
capture upper-cased, else null. -/
def extractUkPostcode (v : JsVal) : Option String :=
  if ¬ truthy v then none
  else
    let text := (jsToString v).data
    match firstSomePat (fun pat => searchPattern pat none text)
        [ukPostcodeFull, ukPostcodeNoSpace, ukPostcodePartial] with
    | some cap => some (String.mk (cap.map Char.toUpper))
    | none => none

/-- Case-insensitive prefix test (for the `/i` patterns). -/
def leadsWithCI : List Char → List Char → Bool
  | [], _ => true
  | _ :: _, [] => false
  | p :: ps, c :: cs => p.toLower = c.toLower ∧ leadsWithCI ps cs

/-- `String.prototype.replace` with a plain-string needle: remove the
first occurrence only.  (`replace('tel:', '')` in `normalizePhone`.) -/
def removeFirstOcc (pat : List Char) : List Char → List Char
  | [] => []
  | c :: rest =>
      if leadsWith pat (c :: rest) then (c :: rest).drop pat.length
      else c :: removeFirstOcc pat rest

/-- The three alternatives of the phone regex
`/(\+44\s?7\d{3}|\+44\s?\d{2}|\d{2,4})\s?\d{3,4}\s?\d{3,4}/`,
each concatenated with the shared tail (JS tries alternatives left to
right with full backtracking). -/
def phoneCommonTail : List Piece :=
  [⟨isJsSpace, 0, some 1⟩, ⟨isReDigit, 3, some 4⟩,
   ⟨isJsSpace, 0, some 1⟩, ⟨isReDigit, 3, some 4⟩]

def litPiece (c : Char) : Piece := ⟨fun x => x = c, 1, some 1⟩

def phoneAlts : List (List Piece) :=
  [ [litPiece '+', litPiece '4', litPiece '4', ⟨isJsSpace, 0, some 1⟩,
     litPiece '7', ⟨isReDigit, 3, some 3⟩] ++ phoneCommonTail,
    [litPiece '+', litPiece '4', litPiece '4', ⟨isJsSpace, 0, some 1⟩,
     ⟨isReDigit, 2, some 2⟩] ++ phoneCommonTail,
    [⟨isReDigit, 2, some 4⟩] ++ phoneCommonTail ]

def firstSomeAlt (f : List Piece → Option Nat) :
    List (List Piece) → Option Nat
  | [] => none
  | p :: ps =>
      match f p with
      | some r => some r
      | none => firstSomeAlt f ps

/-- Leftmost match of an alternation of piece-lists; returns the whole
matched substring (`match[0]`). -/
def searchPieceAlts (alts : List (List Piece)) : List Char → Option (List Char)
  | [] =>
      match firstSomeAlt
          (fun ps => matchPieces 32 ps [] (fun _ => some 0)) alts with
      | some n => some (([] : List Char).take n)
      | none => none
  | c :: rest =>
      match firstSomeAlt
          (fun ps => matchPieces 32 ps (c :: rest) (fun _ => some 0)) alts with
      | some n => some ((c :: rest).take n)
      | none => searchPieceAlts alts rest

/-- `normalizePhone` (lines 79-84 / 599-604, identical in both
revisions). -/
def normalizePhone (v : JsVal) : Option String :=
  if ¬ truthy v then none
  else
    let raw := trimJs (String.mk (removeFirstOcc "tel:".data (jsToString v).data))
    match searchPieceAlts phoneAlts raw.data with
    | some m => some (trimJs (collapseWs (String.mk m)))
    | none => none

/-- Match attempt for `/\/branch\/[^/]*\/(\d+)\b/i` at the current
position.  `[^/]*` followed by a literal `/` deterministically consumes
up to the next slash, and `(\d+)\b` forces the maximal digit run
followed by a non-word character or the end. -/
def tryBranchIdAt (cs : List Char) : Option String :=
  if leadsWithCI "/branch/".data cs then
    let after := cs.drop 8
    let seg := after.takeWhile (fun c => c ≠ '/')
    match after.drop seg.length with
    | '/' :: rest2 =>
        let ds := rest2.takeWhile isReDigit
        if ds ≠ [] ∧ nonWordLead (rest2.drop ds.length) then some (String.mk ds)
        else none
    | _ => none
  else none

/-- Match attempt for `/\/(\d+)\/?$/` at the current position: a slash,
a maximal digit run, then either the end or one final slash. -/
def tryNumericTailAt (cs : List Char) : Option String :=
  match cs with
  | '/' :: rest =>
      let ds := rest.takeWhile isReDigit
      if ds ≠ [] ∧ (rest.drop ds.length = [] ∨ rest.drop ds.length = ['/'])
      then some (String.mk ds) else none
  | _ => none

/-- Match attempt for `/\/branch\/([^/]+)\/?/i` at the current
position. -/
def trySlugAt (cs : List Char) : Option String :=
  if leadsWithCI "/branch/".data cs then
    let seg := (cs.drop 8).takeWhile (fun c => c ≠ '/')
    if seg ≠ [] then some (String.mk seg) else none
  else none

def searchBy (f : List Char → Option String) : List Char → Option String
  | [] => f []
  | c :: rest =>
      match f (c :: rest) with
      | some r => some r
      | none => searchBy f rest

/-- `extractAgentIdFromUrl` (lines 606-614, v1 only): the three regexes
tried in order, each searched leftmost. -/
def extractAgentIdFromUrl (url : Option String) : Option String :=
  match url with
  | none => none
  | some u =>
      if u = "" then none
      else
        match searchBy tryBranchIdAt u.data with
        | some r => some r
        | none =>
            match searchBy tryNumericTailAt u.data with
            | some r => some r
            | none => searchBy trySlugAt u.data

/-- The canonical output record.  Fields are exactly the keys built by
the two normalizers; `avgAskingPrice`, `avgRentPrice` and `featured`
exist only in the v2 record literal and are `none`/`false` on v1
records.  The `scrapedAt` timestamp is spread in at save time from the
ambient clock (an external collaborator) and is not part of the
record value. -/
structure AgentRecord where
  agentId : Option String := none
  name : Option String := none
  branchName : Option String := none
  companyName : Option String := none
  url : Option String := none
  address : Option String := none
  postalCode : Option String := none
  locality : Option String := none
  phone : Option String := none
  website : Option String := none
  logo : Option String := none
  rating : Option JsNum := none
  reviewCount : Option JsNum := none
  listingsForSale : Option JsNum := none
  listingsToRent : Option JsNum := none
  avgAskingPrice : Option JsNum := none
  avgRentPrice : Option JsNum := none
  featured : Bool := false
  source : String := ""
deriving DecidableEq

/-- `normalizeZooplaAgent` (lines 122-157, v2 only): the primary Record
Normalizer.  Returns `none` when the input is not a truthy object or
when the probed name cleans to null/empty. -/
def normalizeZooplaAgent (agent : JsVal) (source : String) : Option AgentRecord :=
  match agent with
  | .vObj _ =>
      let residential := jsOr (optChain (getField agent "listingsStatistics") "residential") (.vObj [])
      let forSale := jsOr (getField residential "forSale") (.vObj [])
      let toRent := jsOr (getField residential "toRent") (.vObj [])
      let agentIdRaw := jsOr (getField agent "id") (getField agent "branchId")
      let name := cleanText (jsOr (getField agent "displayName")
        (jsOr (getField agent "name") (getField agent "branchName")))
      let displayAddress := cleanText (jsOr (getField agent "displayAddress")
        (getField agent "address"))
      match name with
      | none => none
      | some nm =>
          if nm = "" then none
          else some
            { agentId := if truthy agentIdRaw then some (jsToString agentIdRaw) else none
              name := some nm
              branchName := optStrOr (cleanText (getField agent "branchName")) (some nm)
              companyName := cleanText (jsOr (getField agent "companyName")
                (getField agent "company"))
              url := ensureAbsoluteUrl BASE_URL
                (if truthy (getField agent "uriName") then
                  .vStr ("/find-agents/branch/" ++ jsToString (getField agent "uriName")
                    ++ "/" ++ jsToString (getField agent "id") ++ "/")
                 else getField agent "url")
              address := displayAddress
              postalCode := extractUkPostcode (jsOfOptStr displayAddress)
              locality := cleanText (jsOr (getField agent "locality") (getField agent "town"))
              phone := normalizePhone (jsOr (getField agent "contactNumber")
                (jsOr (getField agent "telephone") (getField agent "phone")))
              website := ensureAbsoluteUrl BASE_URL (getField agent "website")
              logo := ensureAbsoluteUrl BASE_URL (getField agent "logo")
              rating := parseNumber (jsOr (getField agent "rating")
                (getField agent "ratingValue"))
              reviewCount := parseNumber (getField agent "reviewCount")
              listingsForSale := parseNumber (getField forSale "availableListings")
              listingsToRent := parseNumber (getField toRent "availableListings")
              avgAskingPrice := parseNumber (getField forSale "avgAskingPrice")
              avgRentPrice := parseNumber (getField toRent "avgAskingPrice")
              featured := truthy (getField agent "featured")
              source := source }
  | _ => none

/-- `buildAddressFromObject` (lines 572-582, v1 only). -/
def buildAddressFromObject (addressObj : JsVal) : Option String :=
  match addressObj with
  | .vObj _ =>
      let parts := [getField addressObj "streetAddress",
                    getField addressObj "addressLocality",
                    getField addressObj "addressRegion",
                    getField addressObj "postalCode",
                    getField addressObj "addressCountry"]
      let cleaned := (parts.map cleanText).filterMap
        (fun o => match o with
                  | some s => if s = "" then none else some s
                  | none => none)
      if cleaned = [] then none else some (String.intercalate ", " cleaned)
  | _ => none

/-- `looksLikeAgentRecord` (lines 658-665, v1 only): a permissive
name-field probe conjoined with a corroborating url/address/id probe. -/
def looksLikeAgentRecord (record : JsVal) : Bool :=
  match record with
  | .vObj _ =>
      let name := jsOr (getField record "name") (jsOr (getField record "branchName")
        (jsOr (getField record "branch_name") (jsOr (getField record "companyName")
          (getField record "company_name"))))
      let url := jsOr (getField record "url") (jsOr (getField record "branchUrl")
        (jsOr (getField record "profileUrl") (getField record "branch_url")))
      let address := jsOr (getField record "address") (jsOr (getField record "displayAddress")
        (jsOr (getField record "address_line") (getField record "addressLine")))
      let id := jsOr (getField record "branchId") (jsOr (getField record "branch_id")
        (jsOr (getField record "agentId") (getField record "id")))
      truthy name ∧ (truthy url ∨ truthy address ∨ truthy id)
  | _ => false

/-- `normalizeAgentRecord` (lines 667-781, v1 only): the secondary
Record Normalizer.  Unlike `normalizeZooplaAgent` it performs no check
on the cleaned `name` and returns a record for every truthy object
input.  (JS arrays would also pass the source's `typeof` guard, but
both extractors branch arrays off before calling the normalizer, so
folding them into the `none` case is unreachable-equivalent.) -/
def normalizeAgentRecord (record : JsVal) (source : String) : Option AgentRecord :=
  match record with
  | .vObj _ =>
      let addressObj : JsVal :=
        match getField record "address" with
        | .vObj fs => .vObj fs
        | .vArr es => .vArr es
        | _ => .vNull
      let structuredAddress := buildAddressFromObject addressObj
      let address := cleanText (jsOr (getField record "displayAddress")
        (jsOr (getField record "address") (jsOr (getField record "address_line")
          (jsOr (getField record "addressLine") (jsOfOptStr structuredAddress)))))
      let locality := cleanText (jsOr (getField record "locality")
        (jsOr (getField record "town") (jsOr (getField record "city")
          (optChain addressObj "addressLocality"))))
      let url := ensureAbsoluteUrl BASE_URL (jsOr (getField record "url")
        (jsOr (getField record "branchUrl") (jsOr (getField record "profileUrl")
          (jsOr (getField record "branch_url") (getField record "link")))))
      let name := cleanText (jsOr (getField record "name")
        (jsOr (getField record "branchName") (jsOr (getField record "branch_name")
          (jsOr (getField record "companyName") (jsOr (getField record "company_name")
            (getField record "legalName"))))))
      let branchName := cleanText (jsOr (getField record "branchName")
        (jsOr (getField record "branch_name") (getField record "branch")))
      let companyName := cleanText (jsOr (getField record "companyName")
        (jsOr (getField record "company_name") (jsOr (getField record "company")
          (getField record "firmName"))))
      let phone := normalizePhone (jsOr (getField record "telephone")
        (jsOr (getField record "phone") (jsOr (getField record "phoneNumber")
          (jsOr (getField record "contactTelephone") (jsOr (getField record "contact_phone")
            (jsOr (optChain (getField record "contact") "telephone")
              (jsOr (optChain (getField record "contact") "phone")
                (optChain (getField record "contact") "phoneNumber"))))))))
      let website := ensureAbsoluteUrl BASE_URL (jsOr (getField record "website")
        (jsOr (getField record "websiteUrl") (jsOr (getField record "website_url")
          (optChain (getField record "contact") "url"))))
      let logo := ensureAbsoluteUrl BASE_URL (jsOr (getField record "logo")
        (jsOr (getField record "image") (jsOr (optChain (getField record "branding") "logo")
          (optChain (getField record "branding") "logoUrl"))))
      let rating := parseNumber (jsOr (getField record "rating")
        (jsOr (getField record "ratingValue") (jsOr (getField record "averageRating")
          (optChain (getField record "aggregateRating") "ratingValue"))))
      let reviewCount := parseNumber (jsOr (getField record "reviewCount")
        (jsOr (getField record "reviewsCount") (jsOr (getField record "review_count")
          (optChain (getField record "aggregateRating") "reviewCount"))))
      let listingsForSale := parseNumber (jsOr (getField record "listingsForSale")
        (jsOr (getField record "listings_for_sale") (jsOr (getField record "propertiesForSale")
          (getField record "numForSale"))))
      let listingsToRent := parseNumber (jsOr (getField record "listingsToRent")
        (jsOr (getField record "listings_to_rent") (jsOr (getField record "propertiesToRent")
          (getField record "numToRent"))))
      let agentId := jsOr (getField record "branchId") (jsOr (getField record "branch_id")
        (jsOr (getField record "agentId") (jsOr (getField record "id")
          (jsOfOptStr (extractAgentIdFromUrl url)))))
      let postalCode := jsOr (getField record "postcode")
        (jsOr (optChain addressObj "postalCode")
          (jsOfOptStr (extractUkPostcode (jsOfOptStr address))))
      some
        { agentId := if truthy agentId then some (jsToString agentId) else none
          name := name
          branchName := optStrOr branchName name
          companyName := companyName
          url := url
          address := address
          postalCode := if truthy postalCode then
              some (String.mk ((jsToString postalCode).data.map Char.toUpper))
            else none
          locality := locality
          phone := phone
          website := website
          logo := logo
          rating := rating
          reviewCount := reviewCount
          listingsForSale := listingsForSale
          listingsToRent := listingsToRent
          avgAskingPrice := none
          avgRentPrice := none
          featured := false
          source := source }
  | _ => none

/-- The identity key used by both deduplicators and the save loops:
`agent.agentId || agent.url || ` then the template literal
`` `${agent.name}|${agent.address}` `` (in which JS renders `null` as
the four characters `null`). -/
def keyOf (a : AgentRecord) : String :=
  match a.agentId with
  | some s => if s = "" then
      (match a.url with
       | some u => if u = "" then renderOptStr a.name ++ "|" ++ renderOptStr a.address else u
       | none => renderOptStr a.name ++ "|" ++ renderOptStr a.address)
    else s
  | none =>
      match a.url with
      | some u => if u = "" then renderOptStr a.name ++ "|" ++ renderOptStr a.address else u
      | none => renderOptStr a.name ++ "|" ++ renderOptStr a.address

/-- The body of the v2 `dedupeAgents` filter (lines 275-283): the
closure-captured `seen` set is threaded explicitly.  `!key` is mirrored
by the `key = ""` test. -/
def dedupeGoV2 : List AgentRecord → List String → List AgentRecord
  | [], _ => []
  | a :: rest, seen =>
      let key := keyOf a
      if key = "" ∨ key ∈ seen then dedupeGoV2 rest seen
      else a :: dedupeGoV2 rest (key :: seen)

/-- `dedupeAgents` (lines 275-283, v2): filter with a seen-set. -/
def dedupeAgents (agents : List AgentRecord) : List AgentRecord :=
  dedupeGoV2 agents []

/-- The body of the v1 `dedupeAgents` loop (lines 997-1007): explicit
results accumulator. -/
def dedupeGoV1 : List AgentRecord → List String → List AgentRecord → List AgentRecord
  | [], _, results => results
  | a :: rest, seen, results =>
      let key := keyOf a
      if key = "" ∨ key ∈ seen then dedupeGoV1 rest seen results
      else dedupeGoV1 rest (key :: seen) (results ++ [a])

/-- `dedupeAgents` (lines 997-1007, v1): loop with accumulator. -/
def dedupeAgentsV1 (agents : List AgentRecord) : List AgentRecord :=
  dedupeGoV1 agents [] []

/-- Result of the save loop inside `requestHandler`. -/
structure SaveResult where
  saved : Nat
  seen : List String
  toSave : List AgentRecord
deriving DecidableEq

/-- The save loop of `requestHandler` (lines 459-471 in v2, 1158-1171 in
v1; identical logic): saves deduplicated agents up to the remaining
budget, skipping keys already in the cross-run `seen` set.  The
`scrapedAt` timestamp spread onto each pushed object comes from the
ambient clock and is not modelled. -/
def saveLoop (resultsWanted : Nat) : List AgentRecord → Nat → List String → SaveResult
  | [], saved, seen => ⟨saved, seen, []⟩
  | a :: rest, saved, seen =>
      if resultsWanted ≤ saved then ⟨saved, seen, []⟩
      else
        let key := keyOf a
        if key = "" ∨ key ∈ seen then saveLoop resultsWanted rest saved seen
        else
          let r := saveLoop resultsWanted rest (saved + 1) (key :: seen)
          ⟨r.saved, r.seen, a :: r.toSave⟩

/-- The query-parameter view of a URL, standing in for the WHATWG `URL`
object the source builds with `new URL(...)`: `base` is the
origin-plus-path part and `params` the search parameters in order.
`set` updates in place or appends, `delete` removes all occurrences,
matching `URLSearchParams`. -/
structure UrlM where
  base : String
  params : List (String × String)
deriving DecidableEq

def UrlM.hasParam (u : UrlM) (k : String) : Bool :=
  u.params.any (fun p => p.1 = k)

def UrlM.getParam (u : UrlM) (k : String) : Option String :=
  (u.params.find? (fun p => p.1 = k)).map (fun p => p.2)

def UrlM.setParam (u : UrlM) (k v : String) : UrlM :=
  if u.hasParam k then
    { u with params := u.params.map (fun p => if p.1 = k then (k, v) else p) }
  else { u with params := u.params ++ [(k, v)] }

def UrlM.delParam (u : UrlM) (k : String) : UrlM :=
  { u with params := u.params.filter (fun p => p.1 ≠ k) }

def UrlM.render (u : UrlM) : String :=
  if u.params = [] then u.base
  else u.base ++ "?" ++
    String.intercalate "&" (u.params.map (fun p => p.1 ++ "=" ++ p.2))

/-- `getPageParamName` (lines 624-628, v1 only): reuse `pn` if present,
else `page` if present, else default to `pn`. -/
def getPageParamName (url : UrlM) : String :=
  if url.hasParam "pn" then "pn"
  else if url.hasParam "page" then "page"
  else "pn"

/-- `page > 1` on an exact decimal: `mant / 10^exp > 1 ↔ mant > 10^exp`. -/
def JsDec.gtOne (d : JsDec) : Bool :=
  (((10 : Nat) ^ d.exp : Nat) : Int) < d.mant

/-- `page + 1` on an exact decimal (canonical form is preserved:
adding one leaves the fractional digits untouched). -/
def JsDec.addOne (d : JsDec) : JsDec :=
  ⟨d.mant + (((10 : Nat) ^ d.exp : Nat) : Int), d.exp⟩

/-- `buildSearchUrlForPage` (lines 630-639, v1): mutate whichever
pagination parameter `getPageParamName` picks. -/
def buildSearchUrlForPage (startUrl : UrlM) (page : JsDec) : UrlM :=
  let pageParam := getPageParamName startUrl
  if page.gtOne then startUrl.setParam pageParam (decToString page)
  else startUrl.delParam pageParam

/-- `buildSearchUrlForPage` (lines 86-95, v2): always delete `page` and
use `pn`. -/
def buildSearchUrlForPageV2 (startUrl : UrlM) (page : JsDec) : UrlM :=
  let u := startUrl.delParam "page"
  if page.gtOne then u.setParam "pn" (decToString page)
  else u.delParam "pn"

/-- The page's next-link anchors, an input produced by the external DOM
library: `relNextHref` is the value of
`$('link[rel="next"]').attr('href') || $('a[rel="next"]').attr('href')`
and `nextAnchorHref` the href of the first anchor matched by the
`aria-label*="Next"` / `pagination-next` / `class*="next"` selectors
(present iff `hasNextAnchor`). -/
structure PageLinks where
  relNextHref : JsVal
  hasNextAnchor : Bool
  nextAnchorHref : JsVal

/-- `findNextPageUrl` (lines 983-995, v1 only): prefer an explicit next
link; else increment the pagination parameter already on the current
URL (`parseNumber(...) || 1`, then `+ 1`). -/
def findNextPageUrl (pl : PageLinks) (currentUrl : UrlM) : Option String :=
  if truthy pl.relNextHref then ensureAbsoluteUrl BASE_URL pl.relNextHref
  else if pl.hasNextAnchor then ensureAbsoluteUrl BASE_URL pl.nextAnchorHref
  else
    let pageParam := getPageParamName currentUrl
    -- `parseNumber(...) || 1`: null, NaN and 0 all fall back to 1.
    let currentPage : JsDec :=
      match parseNumber (jsOfOptStr (currentUrl.getParam pageParam)) with
      | some (.val q) => if q.mant = 0 then .ofInt 1 else q
      | _ => .ofInt 1
    some (UrlM.render (buildSearchUrlForPage currentUrl currentPage.addOne))

/-- Cross-page crawl state of one run: the `seen`, `queued` sets and the
`saved` counter of the main actor (lines 317-319 / 1039-1041). -/
structure RunState where
  saved : Nat
  seen : List String
  queued : List String
deriving DecidableEq

/-- Outcome of one `requestHandler` invocation. -/
structure PageResult where
  state : RunState
  pushed : List AgentRecord
  enqueuedUrl : Option String
deriving DecidableEq

/-- The decision core of the v1 `requestHandler` (lines 1104-1191):
given the extracted candidates for the page (the extraction tiers and
the fetch are external), dedupe, save up to the remaining budget, and
enqueue a successor only when the page budget and result budget both
have room.  The v2 handler (lines 403-493) differs only in checking
`agents.length` before deduplication instead of after and in deriving
the next URL with its own `buildSearchUrlForPage`; the enqueue guard is
the same. -/
def requestHandlerStep (resultsWanted maxPages pageNum : Nat)
    (agents : List AgentRecord) (pl : PageLinks) (currentUrl : UrlM)
    (st : RunState) : PageResult :=
  if resultsWanted ≤ st.saved then ⟨st, [], none⟩
  else
    let deduped := dedupeAgentsV1 agents
    if deduped = [] then ⟨st, [], none⟩
    else
      let s := saveLoop resultsWanted deduped st.saved st.seen
      if pageNum < maxPages ∧ s.saved < resultsWanted then
        match findNextPageUrl pl currentUrl with
        | some nextUrl =>
            if nextUrl ∈ st.queued then
              ⟨⟨s.saved, s.seen, st.queued⟩, s.toSave, none⟩
            else ⟨⟨s.saved, s.seen, nextUrl :: st.queued⟩, s.toSave, some nextUrl⟩
        | none => ⟨⟨s.saved, s.seen, st.queued⟩, s.toSave, none⟩
      else ⟨⟨s.saved, s.seen, st.queued⟩, s.toSave, none⟩

/-- The recognized configuration fields (`Actor.getInput()`), as JS
values. -/
structure ActorInput where
  startUrl : JsVal
  startUrls : JsVal

/-- `startUrls` resolution (lines 294 / 1017):
`Array.isArray(input.startUrls) && input.startUrls.length ? input.startUrls : null`. -/
def resolvedStartUrls (inp : ActorInput) : Option (List JsVal) :=
  match inp.startUrls with
  | .vArr [] => none
  | .vArr (x :: xs) => some (x :: xs)
  | _ => none

/-- `startUrl` resolution (lines 295 / 1018):
`input.startUrl || (startUrls ? null : DEFAULT_START_URL)`. -/
def resolvedStartUrl (inp : ActorInput) : JsVal :=
  jsOr inp.startUrl
    (match resolvedStartUrls inp with
     | some _ => .vNull
     | none => .vStr DEFAULT_START_URL)

/-- The guard of the fatal-exit branch (lines 297-300 / 1020-1023):
`if (!startUrl && !startUrls) { log.error(...); await Actor.exit({ exitCode: 1 }); }`. -/
def fatalExit (inp : ActorInput) : Bool :=
  (! truthy (resolvedStartUrl inp)) && (resolvedStartUrls inp).isNone

/-- A value in an explicit JS object graph: primitives, or a reference
into the heap by object identity.  This models the `WeakSet` visited set
of `extractAgentsFromApiPayload`, which is keyed by identity and must
therefore be modelled with an addressed heap (the payload can contain
shared and cyclic references). -/
inductive HVal where
  | hNull : HVal
  | hUndefined : HVal
  | hStr : String → HVal
  | hNum : Int → HVal
  | hBool : Bool → HVal
  | ref : Nat → HVal
deriving DecidableEq

/-- A heap node: a plain object or an array. -/
inductive HNode where
  | obj : List (String × HVal) → HNode
  | arr : List HVal → HNode

/-- An object graph: node `i` is `nodes[i]`.  Dangling references do not
occur in graphs produced by `JSON.parse`; the walk simply skips them. -/
structure Heap where
  nodes : List HNode

/-- Resolve a graph value into a `JsVal` tree to the given depth
(references beyond the cutoff collapse to an empty object, still truthy
and still stringifying like an object).  `normalizeAgentRecord` and
`looksLikeAgentRecord` dereference at most three levels below the
candidate node, so `heapDepth` below is exact for every access they
perform. -/
def resolveHVal (h : Heap) : Nat → HVal → JsVal
  | _, .hNull => .vNull
  | _, .hUndefined => .vUndefined
  | _, .hStr s => .vStr s
  | _, .hNum n => .vNum n
  | _, .hBool b => .vBool b
  | 0, .ref _ => .vObj []
  | fuel + 1, .ref i =>
      match h.nodes.get? i with
      | some (.obj fields) => .vObj (fields.map (fun p => (p.1, resolveHVal h fuel p.2)))
      | some (.arr elems) => .vArr (elems.map (fun v => resolveHVal h fuel v))
      | none => .vObj []

/-- Depth to which the walk resolves a node before testing and
normalizing it (strictly more than any property path the v1 normalizer
reads). -/
def heapDepth : Nat := 4

/-- Result of the generic payload walk. -/
structure WalkResult where
  results : List AgentRecord
  matched : List Nat
  visited : List Nat

/-- The loop body of `extractAgentsFromApiPayload` (lines 783-814, v1
only), with the mutable `queue` / `seen` / `results` / `steps` state
threaded explicitly: `budget` is `20000 - steps`, decremented once per
iteration exactly as `steps += 1` runs once per iteration (including
iterations that pop a primitive or an already-visited node).  `matched`
records the identity of every node that passed `looksLikeAgentRecord`
and had its normalization appended. -/
def walkGo (h : Heap) : Nat → List HVal → List Nat → List AgentRecord → List Nat → WalkResult
  | 0, _, visited, results, matched => ⟨results, matched, visited⟩
  | _ + 1, [], visited, results, matched => ⟨results, matched, visited⟩
  | budget + 1, current :: queue, visited, results, matched =>
      match current with
      | .ref i =>
          if i ∈ visited then walkGo h budget queue visited results matched
          else
            match h.nodes.get? i with
            | some (.arr elems) =>
                walkGo h budget (queue ++ elems) (i :: visited) results matched
            | some (.obj fields) =>
                let childRefs := fields.filterMap
                  (fun p => match p.2 with
                            | .ref j => some (HVal.ref j)
                            | _ => none)
                let node := resolveHVal h heapDepth (.ref i)
                if looksLikeAgentRecord node then
                  match normalizeAgentRecord node "api" with
                  | some r =>
                      walkGo h budget (queue ++ childRefs) (i :: visited)
                        (results ++ [r]) (matched ++ [i])
                  | none =>
                      walkGo h budget (queue ++ childRefs) (i :: visited) results matched
                else walkGo h budget (queue ++ childRefs) (i :: visited) results matched
            | none => walkGo h budget queue visited results matched
      | _ => walkGo h budget queue visited results matched

/-- `extractAgentsFromApiPayload` (lines 783-814, v1 only): seed the
queue with the root and run the budgeted breadth-first walk.  A falsy
root returns `[]` before the loop. -/
def extractAgentsFromApiPayload (h : Heap) (payload : HVal) : WalkResult :=
  match payload with
  | .hNull => ⟨[], [], []⟩
  | .hUndefined => ⟨[], [], []⟩
  | .hStr "" => ⟨[], [], []⟩
  | .hNum 0 => ⟨[], [], []⟩
  | .hBool false => ⟨[], [], []⟩
  | _ => walkGo h 20000 [payload] [] [] []

/-! ### Concrete fixtures used by the theorems below -/

/-- A page exposing no explicit next link of any kind. -/
def noNextLinks : PageLinks := ⟨.vUndefined, false, .vUndefined⟩

/-- The default target as a `UrlM`. -/
def londonStartUrl : UrlM := ⟨DEFAULT_START_URL, []⟩

/-- A well-formed candidate record with a distinct id and name. -/
def sampleAgent (i : Nat) : AgentRecord :=
  { agentId := some (toString i), name := some ("Agent " ++ toString i),
    source := "api" }

/-- Five distinct valid candidates, as extracted from one page. -/
def fiveCandidates : List AgentRecord :=
  [sampleAgent 1, sampleAgent 2, sampleAgent 3, sampleAgent 4, sampleAgent 5]

/-- A record with none of the three identity components (`agentId`,
`url`, `name`/`address` all null). -/
def nullIdentityAgent : AgentRecord := { source := "html" }

/-- A raw candidate whose name-like field is whitespace only: the name
probe hits `"   "` (truthy), which cleans to the empty string. -/
def blankNameCandidate : JsVal := .vObj [("name", .vStr "   "), ("id", .vStr "77")]

/-- A raw candidate with a plain usable name. -/
def acmeCandidate : JsVal := .vObj [("name", .vStr "Acme")]

/-- The value `normalizeZooplaAgent acmeCandidate "api"` evaluates to. -/
def acmeRecord : AgentRecord :=
  { name := some "Acme", branchName := some "Acme", source := "api" }

/-- A raw candidate with a name and an address (used to discharge the
normalizer hypotheses at a second concrete point). -/
def betaCandidate : JsVal :=
  .vObj [("name", .vStr "Beta Homes"), ("displayAddress", .vStr "1 High St")]

/-- The value `normalizeZooplaAgent betaCandidate "api"` evaluates to. -/
def betaRecord : AgentRecord :=
  { name := some "Beta Homes", branchName := some "Beta Homes",
    address := some "1 High St", source := "api" }

/-- An object graph with a self-reference at the root and two distinct
paths (`a` and `b`) to the same agent-like node 1. -/
def cyclicHeap : Heap :=
  ⟨[.obj [("self", .ref 0), ("a", .ref 1), ("b", .ref 1)],
    .obj [("name", .hStr "Acme"), ("id", .hNum 12)]]⟩

/-! ### Helper lemmas (shared across claims) -/

theorem pipeKey_ne_empty (x y : String) : x ++ "|" ++ y ≠ "" := by
  intro hcontra
  have hlen := congrArg String.length hcontra
  rw [String.length_append, String.length_append] at hlen
  have h1 : ("|" : String).length = 1 := rfl
  have h0 : ("" : String).length = 0 := rfl
  omega

theorem keyOf_ne_empty (a : AgentRecord) : keyOf a ≠ "" := by
  unfold keyOf
  rcases a.agentId with _ | s
  · rcases a.url with _ | u
    · exact pipeKey_ne_empty _ _
    · by_cases hu : u = ""
      · simpa [hu] using pipeKey_ne_empty (renderOptStr a.name) (renderOptStr a.address)
      · simp [hu]
  · by_cases hs : s = ""
    · rcases a.url with _ | u
      · simpa [hs] using pipeKey_ne_empty (renderOptStr a.name) (renderOptStr a.address)
      · by_cases hu : u = ""
        · simpa [hs, hu] using pipeKey_ne_empty (renderOptStr a.name) (renderOptStr a.address)
        · simp [hs, hu]
    · simp [hs]

theorem dedupeGoV2_length (L : List AgentRecord) :
    ∀ seen : List String, (dedupeGoV2 L seen).length ≤ L.length := by
  induction L with
  | nil => intro seen; simp [dedupeGoV2]
  | cons a rest ih =>
      intro seen
      simp only [dedupeGoV2]
      split
      · exact Nat.le_succ_of_le (ih seen)
      · simpa using ih (keyOf a :: seen)

theorem dedupeGoV2_idem (L : List AgentRecord) :
    ∀ seen : List String, dedupeGoV2 (dedupeGoV2 L seen) seen = dedupeGoV2 L seen := by
  induction L with
  | nil => intro seen; simp [dedupeGoV2]
  | cons a rest ih =>
      intro seen
      simp only [dedupeGoV2]
      split
      · exact ih seen
      · rename_i hkey
        simp only [dedupeGoV2, if_neg hkey]
        exact congrArg (a :: ·) (ih (keyOf a :: seen))

theorem dedupeGoV1_append (L : List AgentRecord) :
    ∀ (seen : List String) (acc : List AgentRecord),
      dedupeGoV1 L seen acc = acc ++ dedupeGoV2 L seen := by
  induction L with
  | nil => intro seen acc; simp [dedupeGoV1, dedupeGoV2]
  | cons a rest ih =>
      intro seen acc
      simp only [dedupeGoV1, dedupeGoV2]
      split
      · exact ih seen acc
      · rw [ih (keyOf a :: seen) (acc ++ [a])]
        simp

theorem dedupeAgentsV1_eq (L : List AgentRecord) : dedupeAgentsV1 L = dedupeAgents L := by
  unfold dedupeAgentsV1 dedupeAgents
  simpa using dedupeGoV1_append L [] []

theorem saveLoop_toSave_le (rw : Nat) (L : List AgentRecord) :
    ∀ (saved : Nat) (seen : List String),
      (saveLoop rw L saved seen).toSave.length ≤ rw - saved := by
  induction L with
  | nil => intro saved seen; simp [saveLoop]
  | cons a rest ih =>
      intro saved seen
      simp only [saveLoop]
      split
      · simp
      · split
        · exact ih saved seen
        · rename_i hlt _
          have := ih (saved + 1) (keyOf a :: seen)
          simp only [List.length_cons]
          omega

theorem saveLoop_saved_le (rw : Nat) (L : List AgentRecord) :
    ∀ (saved : Nat) (seen : List String), saved ≤ rw →
      (saveLoop rw L saved seen).saved ≤ rw := by
  induction L with
  | nil => intro saved seen hle; simpa [saveLoop] using hle
  | cons a rest ih =>
      intro saved seen hle
      simp only [saveLoop]
      split
      · simpa using hle
      · split
        · exact ih saved seen hle
        · rename_i hlt _
          exact ih (saved + 1) (keyOf a :: seen) (by omega)

theorem walkGo_visited_length (h : Heap) (budget : Nat) :
    ∀ (queue : List HVal) (visited : List Nat) (results : List AgentRecord)
      (matched : List Nat),
      (walkGo h budget queue visited results matched).visited.length ≤
        visited.length + budget := by
  induction budget with
  | zero => intro queue visited results matched; simp [walkGo]
  | succ b ih =>
      intro queue visited results matched
      match queue with
      | [] => simp [walkGo]
      | current :: rest =>
          cases current with
          | ref i =>
              simp only [walkGo]
              split
              · exact le_trans (ih _ _ _ _) (by omega)
              · split
                · exact le_trans (ih _ _ _ _) (by simp only [List.length_cons]; omega)
                · split
                  · split
                    · exact le_trans (ih _ _ _ _) (by simp only [List.length_cons]; omega)
                    · exact le_trans (ih _ _ _ _) (by simp only [List.length_cons]; omega)
                  · exact le_trans (ih _ _ _ _) (by simp only [List.length_cons]; omega)
                · exact le_trans (ih _ _ _ _) (by omega)
          | hNull =>
              simp only [walkGo]
              exact le_trans (ih _ _ _ _) (by omega)
          | hUndefined =>
              simp only [walkGo]
              exact le_trans (ih _ _ _ _) (by omega)
          | hStr s =>
              simp only [walkGo]
              exact le_trans (ih _ _ _ _) (by omega)
          | hNum n =>
              simp only [walkGo]
              exact le_trans (ih _ _ _ _) (by omega)
          | hBool bb =>
              simp only [walkGo]
              exact le_trans (ih _ _ _ _) (by omega)

theorem walkGo_matched_nodup (h : Heap) (budget : Nat) :
    ∀ (queue : List HVal) (visited : List Nat) (results : List AgentRecord)
      (matched : List Nat),
      matched.Nodup → (∀ i, i ∈ matched → i ∈ visited) →
      (walkGo h budget queue visited results matched).matched.Nodup := by
  induction budget with
  | zero => intro queue visited results matched hnd _; simpa [walkGo] using hnd
  | succ b ih =>
      intro queue visited results matched hnd hsub
      match queue with
      | [] => simpa [walkGo] using hnd
      | current :: rest =>
          cases current with
          | ref i =>
              simp only [walkGo]
              split
              · exact ih rest visited results matched hnd hsub
              · rename_i hnotmem
                split
                · exact ih (rest ++ _) (i :: visited) results matched hnd
                    (fun j hj => List.mem_cons_of_mem i (hsub j hj))
                · split
                  · split
                    · refine ih (rest ++ _) (i :: visited) (results ++ [_]) (matched ++ [i]) ?_ ?_
                      · have hinotm : i ∉ matched := fun hmem => hnotmem (hsub i hmem)
                        simp [List.nodup_append, hnd, hinotm]
                      · intro j hj
                        rcases List.mem_append.mp hj with hj1 | hj2
                        · exact List.mem_cons_of_mem i (hsub j hj1)
                        · simp at hj2
                          simp [hj2]
                    · exact ih (rest ++ _) (i :: visited) results matched hnd
                        (fun j hj => List.mem_cons_of_mem i (hsub j hj))
                  · exact ih (rest ++ _) (i :: visited) results matched hnd
                      (fun j hj => List.mem_cons_of_mem i (hsub j hj))
                · exact ih rest visited results matched hnd hsub
          | hNull =>
              simp only [walkGo]
              exact ih rest visited results matched hnd hsub
          | hUndefined =>
              simp only [walkGo]
              exact ih rest visited results matched hnd hsub
          | hStr s =>
              simp only [walkGo]
              exact ih rest visited results matched hnd hsub
          | hNum n =>
              simp only [walkGo]
              exact ih rest visited results matched hnd hsub
          | hBool bb =>
              simp only [walkGo]
              exact ih rest visited results matched hnd hsub

/-- Helper shared by the normalizer claims: every record produced by
`normalizeZooplaAgent` carries a name that is neither null nor the empty
string. -/
theorem normalizeZooplaAgent_name_nonempty (v : JsVal) (source : String)
    (r : AgentRecord) (h : normalizeZooplaAgent v source = some r) :
    r.name ≠ none ∧ r.name ≠ some "" := by
  cases v with
  | vObj fields =>
      rcases hname : cleanText (jsOr (getField (.vObj fields) "displayName")
          (jsOr (getField (.vObj fields) "name")
            (getField (.vObj fields) "branchName"))) with _ | nm
      · simp [normalizeZooplaAgent, hname] at h
      · by_cases hnm : nm = ""
        · simp [normalizeZooplaAgent, hname, hnm] at h
        · simp [normalizeZooplaAgent, hname, hnm] at h
          rw [← h]
          simp [hnm]
  | vNull => simp [normalizeZooplaAgent] at h
  | vUndefined => simp [normalizeZooplaAgent] at h
  | vStr s => simp [normalizeZooplaAgent] at h
  | vNum n => simp [normalizeZooplaAgent] at h
  | vBool b => simp [normalizeZooplaAgent] at h
  | vArr l => simp [normalizeZooplaAgent] at h

/-! ### Claim theorems -/

/-- C4: for every list `L` of agent records,
`dedupeAgents (dedupeAgents L) = dedupeAgents L` and
`(dedupeAgents L).length ≤ L.length`, for both implementations of
`dedupeAgents` present in the source (the v2 filter-with-seen-set at
lines 275-283 and the v1 loop-with-accumulator at lines 997-1007). -/
theorem claim4_dedupe_idempotent_and_shrinking (L : List AgentRecord) :
    dedupeAgents (dedupeAgents L) = dedupeAgents L ∧
    (dedupeAgents L).length ≤ L.length ∧
    dedupeAgentsV1 (dedupeAgentsV1 L) = dedupeAgentsV1 L ∧
    (dedupeAgentsV1 L).length ≤ L.length := by
  refine ⟨dedupeGoV2_idem L [], dedupeGoV2_length L [], ?_, ?_⟩
  · rw [dedupeAgentsV1_eq L, dedupeAgentsV1_eq (dedupeAgents L)]
    exact dedupeGoV2_idem L []
  · rw [dedupeAgentsV1_eq L]
    exact dedupeGoV2_length L []

/-- C10: the two `dedupeAgents` implementations in the source (the v2
filter over a closure-captured seen-set, lines 275-283, and the v1 loop
with an explicit accumulator, lines 997-1007) are extensionally equal. -/
theorem claim10_dedupe_versions_agree (L : List AgentRecord) :
    dedupeAgentsV1 L = dedupeAgents L := by
  unfold dedupeAgentsV1 dedupeAgents
  simpa using dedupeGoV1_append L [] []

/-- C9: `extractUkPostcode` tries the full-with-space pattern, then the
space-less pattern, then the partial end-anchored pattern, returning the
first match upper-cased, else null.  The conjuncts exercise: the spec's
example; full-with-space winning over an *earlier* space-less match;
space-less winning over a partial end match; the partial pattern alone;
upper-casing of a lower-case match; and the null guard. -/
theorem claim9_extractUkPostcode_order_and_example :
    extractUkPostcode (.vStr "123 High Street, London SW1A 1AA") = some "SW1A 1AA" ∧
    extractUkPostcode (.vStr "E17AA near SW1A 1AA") = some "SW1A 1AA" ∧
    extractUkPostcode (.vStr "E17AA London N1") = some "E17AA" ∧
    extractUkPostcode (.vStr "London SW1A") = some "SW1A" ∧
    extractUkPostcode (.vStr "london sw1a 1aa") = some "SW1A 1AA" ∧
    extractUkPostcode .vNull = none := by
  refine ⟨?_, ?_, ?_, ?_, ?_, ?_⟩ <;> decide

/-- C6 counterexample: with no start URL configured at all
(`startUrl` and `startUrls` both undefined), the run does *not*
terminate: the fatal-exit guard evaluates to false because the resolved
start URL falls back to `DEFAULT_START_URL`. -/
theorem claim6_counterexample_default_url_used :
    fatalExit ⟨.vUndefined, .vUndefined⟩ = false ∧
    resolvedStartUrl ⟨.vUndefined, .vUndefined⟩ = .vStr DEFAULT_START_URL :=
  ⟨rfl, rfl⟩

/-- C6 amended: the fatal-exit branch (`!startUrl && !startUrls`) is
unreachable for every input: when `startUrls` is absent/unusable the
resolved `startUrl` falls back to the truthy `DEFAULT_START_URL`, and
when `startUrls` is usable the second conjunct of the guard fails.  No
input configuration terminates the run through this branch. -/
theorem claim6_amended_fatal_exit_unreachable (inp : ActorInput) :
    fatalExit inp = false := by
  unfold fatalExit
  cases hru : resolvedStartUrls inp with
  | some l => simp [hru]
  | none =>
      have hres : resolvedStartUrl inp = jsOr inp.startUrl (.vStr DEFAULT_START_URL) := by
        unfold resolvedStartUrl
        rw [hru]
      rw [hres]
      by_cases ht : truthy inp.startUrl
      · simp [jsOr, ht]
      · have hj : jsOr inp.startUrl (.vStr DEFAULT_START_URL) = .vStr DEFAULT_START_URL := by
          unfold jsOr
          rw [if_neg (by simpa using ht)]
        rw [hj]
        decide

/-- C2 counterexample: `normalizeAgentRecord` (the v1 Record Normalizer,
whose field probing matches the spec's §4.2 description) is given a raw
candidate whose name-like field is whitespace only, so the probed name
normalizes to the empty string — yet it returns a record (not null) and
that record's name is the empty string. -/
theorem claim2_counterexample_blank_name_record :
    (normalizeAgentRecord blankNameCandidate "api").map AgentRecord.name =
      some (some "") := by
  decide

/-- C2 amended: `normalizeZooplaAgent` (the v2 Record Normalizer)
returns null exactly when the probed name cleans to null or empty —
name is the only field with that effect — and never returns a record
whose name is null or the empty string; `normalizeAgentRecord` performs
no such check (it returns a record with empty name on
`blankNameCandidate`, see the counterexample), while
`normalizeZooplaAgent` rejects the same candidate. -/
theorem claim2_amended_name_guard :
    (∀ (fields : List (String × JsVal)) (source : String),
        (normalizeZooplaAgent (.vObj fields) source = none ↔
          cleanText (jsOr (getField (.vObj fields) "displayName")
              (jsOr (getField (.vObj fields) "name")
                (getField (.vObj fields) "branchName"))) = none ∨
          cleanText (jsOr (getField (.vObj fields) "displayName")
              (jsOr (getField (.vObj fields) "name")
                (getField (.vObj fields) "branchName"))) = some "")) ∧
    (∀ (v : JsVal) (source : String) (r : AgentRecord),
        normalizeZooplaAgent v source = some r → r.name ≠ none ∧ r.name ≠ some "") ∧
    normalizeZooplaAgent blankNameCandidate "api" = none := by
  refine ⟨?_, fun v s r h => normalizeZooplaAgent_name_nonempty v s r h, by decide⟩
  intro fields source
  rcases hname : cleanText (jsOr (getField (.vObj fields) "displayName")
      (jsOr (getField (.vObj fields) "name")
        (getField (.vObj fields) "branchName"))) with _ | nm
  · simp [normalizeZooplaAgent, hname]
  · by_cases hnm : nm = ""
    · simp [normalizeZooplaAgent, hname, hnm]
    · simp [normalizeZooplaAgent, hname, hnm]

/-- C2 witness: the amended guarantee applied to the concrete candidate
`acmeCandidate`, whose normalization is the concrete `acmeRecord`. -/
theorem claim2_witness : acmeRecord.name ≠ none ∧ acmeRecord.name ≠ some "" :=
  claim2_amended_name_guard.2.1 acmeCandidate "api" acmeRecord (by decide)

/-- C3 counterexample: a record with `agentId`, `url`, `name` and
`address` all null is *not* discarded by either deduplicator nor by the
save loop — the identity key falls back to the string `null|null`,
which is truthy, so the record is kept and saved. -/
theorem claim3_counterexample_identityless_kept :
    dedupeAgents [nullIdentityAgent] = [nullIdentityAgent] ∧
    dedupeAgentsV1 [nullIdentityAgent] = [nullIdentityAgent] ∧
    (saveLoop 5 [nullIdentityAgent] 0 []).toSave = [nullIdentityAgent] := by
  refine ⟨?_, ?_, ?_⟩ <;> decide

/-- C3 amended: the deduplication/save key of *every* record is
non-empty — a record lacking all three identity components gets the
literal sentinel key `null|null` (JS string interpolation of two nulls)
— so identity-less records are deduplicated among themselves but kept,
never discarded; records produced by `normalizeZooplaAgent` do carry a
non-null name. -/
theorem claim3_amended_key_never_empty :
    (∀ a : AgentRecord, keyOf a ≠ "") ∧
    keyOf nullIdentityAgent = "null|null" ∧
    (∀ (v : JsVal) (source : String) (r : AgentRecord),
        normalizeZooplaAgent v source = some r → r.name ≠ none) :=
  ⟨keyOf_ne_empty, by decide,
   fun v s r h => (normalizeZooplaAgent_name_nonempty v s r h).1⟩

/-- C3 witness: the amended statement applied at concrete inputs
(`nullIdentityAgent` for the key, `betaCandidate`/`betaRecord` for the
normalizer guarantee). -/
theorem claim3_witness : keyOf nullIdentityAgent ≠ "" ∧ betaRecord.name ≠ none :=
  ⟨claim3_amended_key_never_empty.1 nullIdentityAgent,
   claim3_amended_key_never_empty.2.2 betaCandidate "api" betaRecord (by decide)⟩

/-- C7 counterexample: the parameter preferred when *both* pagination
parameters are present is `pn`, and the parameter inserted when
*neither* is present is also `pn` — i.e. `getPageParamName` defaults to
the preferred (higher-priority) parameter name, not the lower-priority
one; concretely, a bare URL is paginated by inserting `pn=2`. -/
theorem claim7_counterexample_default_is_preferred_param :
    getPageParamName ⟨"https://x", [("pn", "2"), ("page", "7")]⟩ = "pn" ∧
    getPageParamName ⟨"https://x", []⟩ = "pn" ∧
    findNextPageUrl noNextLinks ⟨"https://x", []⟩ = some "https://x?pn=2" := by
  refine ⟨rfl, rfl, ?_⟩
  decide

/-- C7 amended: an explicit next link, when truthy, is always preferred;
otherwise the pagination parameter already present on the current URL
(`pn` first, else `page`) is reused with its page number incremented;
when neither is present the *default/preferred* name `pn` is inserted
(at page 2 for a bare URL). -/
theorem claim7_amended_next_page_derivation :
    (∀ (pl : PageLinks) (u : UrlM), truthy pl.relNextHref = true →
        findNextPageUrl pl u = ensureAbsoluteUrl BASE_URL pl.relNextHref) ∧
    (∀ u : UrlM, u.hasParam "pn" = true → getPageParamName u = "pn") ∧
    (∀ u : UrlM, u.hasParam "pn" = false → u.hasParam "page" = true →
        getPageParamName u = "page") ∧
    (∀ u : UrlM, u.hasParam "pn" = false → u.hasParam "page" = false →
        getPageParamName u = "pn") ∧
    findNextPageUrl noNextLinks ⟨"https://x", [("page", "3")]⟩ = some "https://x?page=4" ∧
    findNextPageUrl noNextLinks ⟨"https://x", [("pn", "3")]⟩ = some "https://x?pn=4" := by
  refine ⟨?_, ?_, ?_, ?_, by decide, by decide⟩
  · intro pl u h
    simp [findNextPageUrl, h]
  · intro u h
    simp [getPageParamName, h]
  · intro u h1 h2
    simp [getPageParamName, h1, h2]
  · intro u h1 h2
    simp [getPageParamName, h1, h2]

/-- C7 witness: the amended statement applied at concrete inputs — an
explicit next link, and URLs carrying `pn`, `page`, or neither. -/
theorem claim7_witness :
    findNextPageUrl ⟨.vStr "https://n.example/next", false, .vUndefined⟩ londonStartUrl =
      ensureAbsoluteUrl BASE_URL (.vStr "https://n.example/next") ∧
    getPageParamName ⟨"https://x", [("pn", "3")]⟩ = "pn" ∧
    getPageParamName ⟨"https://x", [("page", "3")]⟩ = "page" ∧
    getPageParamName ⟨"https://x", []⟩ = "pn" :=
  ⟨claim7_amended_next_page_derivation.1 _ _ (by decide),
   claim7_amended_next_page_derivation.2.1 _ (by decide),
   claim7_amended_next_page_derivation.2.2.1 _ (by decide) (by decide),
   claim7_amended_next_page_derivation.2.2.2.1 _ (by decide) (by decide)⟩

/-- `jsStartsWith s "http"` forces the first character to be `h`, which
rules out the three rejected schemes, protocol-relative prefixes, and
the empty string. -/
theorem startsWith_http_excludes (s : String) (h : jsStartsWith s "http" = true) :
    jsStartsWith s "data:" = false ∧ jsStartsWith s "mailto:" = false ∧
    jsStartsWith s "tel:" = false ∧ jsStartsWith s "//" = false ∧ s ≠ "" := by
  unfold jsStartsWith at h ⊢
  cases hd : s.data with
  | nil => rw [hd] at h; exact absurd h (by decide)
  | cons c rest =>
      rw [hd] at h
      rw [show ("http".data = ['h', 't', 't', 'p']) from rfl] at h
      simp only [leadsWith, Bool.and_eq_true, decide_eq_true_eq] at h
      obtain ⟨hc, -⟩ := h
      subst hc
      refine ⟨?_, ?_, ?_, ?_, ?_⟩
      · rw [show ("data:".data = ['d', 'a', 't', 'a', ':']) from rfl]
        simp [leadsWith]
      · rw [show ("mailto:".data = ['m', 'a', 'i', 'l', 't', 'o', ':']) from rfl]
        simp [leadsWith]
      · rw [show ("tel:".data = ['t', 'e', 'l', ':']) from rfl]
        simp [leadsWith]
      · rw [show ("//".data = ['/', '/']) from rfl]
        simp [leadsWith]
      · intro he
        rw [he] at hd
        rw [show (("" : String).data = ([] : List Char)) from rfl] at hd
        exact List.noConfusion hd

/-- `jsStartsWith s "//"` forces the first character to be `/`, which
rules out the three rejected schemes, the `http` prefix, and the empty
string. -/
theorem startsWith_slashes_excludes (s : String) (h : jsStartsWith s "//" = true) :
    jsStartsWith s "data:" = false ∧ jsStartsWith s "mailto:" = false ∧
    jsStartsWith s "tel:" = false ∧ jsStartsWith s "http" = false ∧ s ≠ "" := by
  unfold jsStartsWith at h ⊢
  cases hd : s.data with
  | nil => rw [hd] at h; exact absurd h (by decide)
  | cons c rest =>
      rw [hd] at h
      rw [show ("//".data = ['/', '/']) from rfl] at h
      simp only [leadsWith, Bool.and_eq_true, decide_eq_true_eq] at h
      obtain ⟨hc, -⟩ := h
      subst hc
      refine ⟨?_, ?_, ?_, ?_, ?_⟩
      · rw [show ("data:".data = ['d', 'a', 't', 'a', ':']) from rfl]
        simp [leadsWith]
      · rw [show ("mailto:".data = ['m', 'a', 'i', 'l', 't', 'o', ':']) from rfl]
        simp [leadsWith]
      · rw [show ("tel:".data = ['t', 'e', 'l', ':']) from rfl]
        simp [leadsWith]
      · rw [show ("http".data = ['h', 't', 't', 'p']) from rfl]
        simp [leadsWith]
      · intro he
        rw [he] at hd
        rw [show (("" : String).data = ([] : List Char)) from rfl] at hd
        exact List.noConfusion hd

/-- C8 counterexample: `"httpfoo"` is none of the rejected schemes, not
protocol-relative, and not an `http(s)://` URL, so per the claim's
"otherwise" clause it would have to be joined with the base origin —
but the code's `startsWith('http')` test returns it untouched. -/
theorem claim8_counterexample_http_prefix_untouched :
    ensureAbsoluteUrl "https://example.test" (.vStr "httpfoo") = some "httpfoo" ∧
    ("httpfoo" : String) ≠ "https://example.test" ++ "/httpfoo" := by
  exact ⟨by decide, by decide⟩

/-- C8 amended: `toAbsoluteUrl` (= `ensureAbsoluteUrl` with the base
origin lambda-lifted) returns null on falsy input and on `data:`,
`mailto:`, `tel:` schemes; prefixes protocol-relative `//` strings with
`https:`; returns every trimmed string beginning with the four
characters `http` unchanged (this covers all `http(s)://` URLs but also
bare strings such as `httpfoo`); and otherwise joins the trimmed string
with the base origin, inserting a `/` separator exactly when the string
does not already begin with one.  The spec's two examples hold. -/
theorem claim8_amended_ensureAbsoluteUrl_behavior :
    (∀ (base : String) (v : JsVal), truthy v = false →
        ensureAbsoluteUrl base v = none) ∧
    ensureAbsoluteUrl "https://example.test" (.vStr "mailto:x@y.test") = none ∧
    ensureAbsoluteUrl "https://example.test" (.vStr "data:image/png;base64,AA") = none ∧
    ensureAbsoluteUrl "https://example.test" (.vStr "tel:+442012345678") = none ∧
    ensureAbsoluteUrl "https://example.test" (.vStr "") = none ∧
    (∀ (base s : String), trimJs s = s → jsStartsWith s "//" = true →
        ensureAbsoluteUrl base (.vStr s) = some ("https:" ++ s)) ∧
    (∀ (base s : String), trimJs s = s → jsStartsWith s "http" = true →
        ensureAbsoluteUrl base (.vStr s) = some s) ∧
    (∀ (base s : String), trimJs s = s → s ≠ "" →
        jsStartsWith s "data:" = false → jsStartsWith s "mailto:" = false →
        jsStartsWith s "tel:" = false → jsStartsWith s "//" = false →
        jsStartsWith s "http" = false → jsStartsWith s "/" = true →
        ensureAbsoluteUrl base (.vStr s) = some (base ++ s)) ∧
    (∀ (base s : String), trimJs s = s → s ≠ "" →
        jsStartsWith s "data:" = false → jsStartsWith s "mailto:" = false →
        jsStartsWith s "tel:" = false → jsStartsWith s "//" = false →
        jsStartsWith s "http" = false → jsStartsWith s "/" = false →
        ensureAbsoluteUrl base (.vStr s) = some (base ++ "/" ++ s)) ∧
    ensureAbsoluteUrl "https://example.test" (.vStr "/find-agents/branch/acme/123/") =
      some "https://example.test/find-agents/branch/acme/123/" ∧
    ensureAbsoluteUrl BASE_URL (.vObj [("href", .vStr "/a")]) = some (BASE_URL ++ "/a") := by
  refine ⟨?_, by decide, by decide, by decide, by decide, ?_, ?_, ?_, ?_, by decide, by decide⟩
  · intro base v hfalsy
    simp [ensureAbsoluteUrl, hfalsy]
  · intro base s htrim hss
    obtain ⟨hd, hm, ht', hh, hs0⟩ := startsWith_slashes_excludes s hss
    simp [ensureAbsoluteUrl, htrim, hs0, hd, hm, ht', hh, hss, truthy]
  · intro base s htrim hhttp
    obtain ⟨hd, hm, ht', hss, hs0⟩ := startsWith_http_excludes s hhttp
    simp [ensureAbsoluteUrl, htrim, hs0, hd, hm, ht', hss, hhttp, truthy]
  · intro base s htrim hs0 hd hm ht' hss hh hslash
    simp [ensureAbsoluteUrl, htrim, hs0, hd, hm, ht', hss, hh, hslash, truthy]
  · intro base s htrim hs0 hd hm ht' hss hh hslash
    simp [ensureAbsoluteUrl, htrim, hs0, hd, hm, ht', hss, hh, hslash, truthy]

/-- C8 witness: the amended clauses applied at concrete inputs — a falsy
value, a protocol-relative URL, an absolute URL, a rooted path, and a
bare relative path. -/
theorem claim8_witness :
    ensureAbsoluteUrl BASE_URL .vNull = none ∧
    ensureAbsoluteUrl "https://example.test" (.vStr "//cdn.example.net/l.png") =
      some "https://cdn.example.net/l.png" ∧
    ensureAbsoluteUrl "https://example.test" (.vStr "https://other.example/x") =
      some "https://other.example/x" ∧
    ensureAbsoluteUrl "https://example.test" (.vStr "/p/q") =
      some "https://example.test/p/q" ∧
    ensureAbsoluteUrl "https://example.test" (.vStr "p/q") =
      some "https://example.test/p/q" :=
  ⟨claim8_amended_ensureAbsoluteUrl_behavior.1 BASE_URL .vNull (by decide),
   claim8_amended_ensureAbsoluteUrl_behavior.2.2.2.2.2.1
     "https://example.test" "//cdn.example.net/l.png" (by decide) (by decide),
   claim8_amended_ensureAbsoluteUrl_behavior.2.2.2.2.2.2.1
     "https://example.test" "https://other.example/x" (by decide) (by decide),
   claim8_amended_ensureAbsoluteUrl_behavior.2.2.2.2.2.2.2.1
     "https://example.test" "/p/q" (by decide) (by decide) (by decide) (by decide)
     (by decide) (by decide) (by decide) (by decide),
   claim8_amended_ensureAbsoluteUrl_behavior.2.2.2.2.2.2.2.2.1
     "https://example.test" "p/q" (by decide) (by decide) (by decide) (by decide)
     (by decide) (by decide) (by decide) (by decide)⟩

/-- C1: for every page handled by the controller, at most
`resultsWanted - saved-so-far` records are pushed, the running saved
count never exceeds `resultsWanted`, and a successor page is enqueued
only if the page index is below `maxPages`, the saved count is below
`resultsWanted`, and the page yielded at least one record; concretely,
with `resultsWanted = 1` and a page yielding five valid candidates,
exactly one record is saved and no successor is enqueued. -/
theorem claim1_requestHandler_budget_and_pagination :
    (∀ (resultsWanted maxPages pageNum : Nat) (agents : List AgentRecord)
        (pl : PageLinks) (currentUrl : UrlM) (st : RunState),
        st.saved ≤ resultsWanted →
        ((requestHandlerStep resultsWanted maxPages pageNum agents pl currentUrl
            st).pushed.length ≤ resultsWanted - st.saved ∧
         (requestHandlerStep resultsWanted maxPages pageNum agents pl currentUrl
            st).state.saved ≤ resultsWanted ∧
         ((requestHandlerStep resultsWanted maxPages pageNum agents pl currentUrl
              st).enqueuedUrl.isSome = true →
           pageNum < maxPages ∧
           (requestHandlerStep resultsWanted maxPages pageNum agents pl currentUrl
              st).state.saved < resultsWanted ∧
           agents ≠ []))) ∧
    (requestHandlerStep 1 10 1 fiveCandidates noNextLinks londonStartUrl
        ⟨0, [], []⟩).pushed.length = 1 ∧
    (requestHandlerStep 1 10 1 fiveCandidates noNextLinks londonStartUrl
        ⟨0, [], []⟩).state.saved = 1 ∧
    (requestHandlerStep 1 10 1 fiveCandidates noNextLinks londonStartUrl
        ⟨0, [], []⟩).enqueuedUrl = none := by
  refine ⟨?_, by decide, by decide, by decide⟩
  intro resultsWanted maxPages pageNum agents pl currentUrl st hsaved
  have hlen := saveLoop_toSave_le resultsWanted (dedupeAgentsV1 agents) st.saved st.seen
  have hsle := saveLoop_saved_le resultsWanted (dedupeAgentsV1 agents) st.saved st.seen hsaved
  by_cases hstop : resultsWanted ≤ st.saved
  · simp [requestHandlerStep, hstop, hsaved]
  · by_cases hempty : dedupeAgentsV1 agents = []
    · simp [requestHandlerStep, hstop, hempty, hsaved]
    · have hagents : agents ≠ [] := by
        intro hnil
        rw [hnil] at hempty
        exact hempty rfl
      by_cases hcond : pageNum < maxPages ∧
          (saveLoop resultsWanted (dedupeAgentsV1 agents) st.saved st.seen).saved <
            resultsWanted
      · cases hnext : findNextPageUrl pl currentUrl with
        | some nextUrl =>
            by_cases hq : nextUrl ∈ st.queued
            · simp [requestHandlerStep, hstop, hempty, hcond, hnext, hq, hlen, hsle]
            · simp only [requestHandlerStep, hstop, hempty, hcond, hnext, hq,
                if_false, if_neg, if_pos, ite_true, ite_false]
              simp [hstop, hempty, hcond, hq, hlen, hsle, hagents, hcond.1, hcond.2]
        | none =>
            simp [requestHandlerStep, hstop, hempty, hcond, hnext, hlen, hsle]
      · simp [requestHandlerStep, hstop, hempty, hcond, hlen, hsle]

/-- C1 witness: the budget bounds applied at a concrete state that is
half-way through its budget (two already saved out of three wanted). -/
theorem claim1_witness :
    (requestHandlerStep 3 10 1 fiveCandidates noNextLinks londonStartUrl
        ⟨2, [], []⟩).pushed.length ≤ 3 - 2 ∧
    (requestHandlerStep 3 10 1 fiveCandidates noNextLinks londonStartUrl
        ⟨2, [], []⟩).state.saved ≤ 3 :=
  ⟨(claim1_requestHandler_budget_and_pagination.1 3 10 1 fiveCandidates noNextLinks
      londonStartUrl ⟨2, [], []⟩ (by decide)).1,
   (claim1_requestHandler_budget_and_pagination.1 3 10 1 fiveCandidates noNextLinks
      londonStartUrl ⟨2, [], []⟩ (by decide)).2.1⟩

/-- C5: the structured-payload walk is total with a hard budget — it
visits at most 20000 nodes on every input, including cyclic object
graphs — and a candidate node reachable via several paths is normalized
and appended at most once (the matched identities are duplicate-free);
on the concrete `cyclicHeap` (a self-referencing root with two paths to
one agent-like node) the walk terminates with exactly one appended
result. -/
theorem claim5_walk_bounded_and_no_duplicates :
    (∀ (h : Heap) (payload : HVal),
        (extractAgentsFromApiPayload h payload).visited.length ≤ 20000 ∧
        (extractAgentsFromApiPayload h payload).matched.Nodup) ∧
    (extractAgentsFromApiPayload cyclicHeap (.ref 0)).matched = [1] ∧
    (extractAgentsFromApiPayload cyclicHeap (.ref 0)).results.length = 1 := by
  refine ⟨?_, by decide, by decide⟩
  intro h payload
  constructor
  · unfold extractAgentsFromApiPayload
    split
    · simp
    · simp
    · simp
    · simp
    · simp
    · simpa using walkGo_visited_length h 20000 [_] [] [] []
  · unfold extractAgentsFromApiPayload
    split
    · simp
    · simp
    · simp
    · simp
    · simp
    · exact walkGo_matched_nodup h 20000 [_] [] [] [] List.nodup_nil (by simp)

end Zoopla
